import Mathlib

/-!
Shallow embedding of the leafwing_terminal command/session core.

The session state machine is embedded from src/ui.rs (function terminal_ui)
and src/terminal.rs (TerminalState and its Default impl).  Rust VecDeque of
String is embedded as List String with front at index 0; VecDeque.insert is
List.insertNth, VecDeque.pop_back is List.dropLast.
-/

namespace LeafwingTerminal

/-- Embeds struct ValueRawOwned of the leafwing_terminal_parser crate.
Modelled from the spec: the parser crate is not under src; the spec
describes a literal value as a tagged union over Boolean, Number
(floating-point) and String.  None of the verified operations inspects the
payloads. -/
inductive ValueRawOwned where
  | boolean (b : Bool)
  | number (n : Float)
  | str (s : String)

/-- Embeds struct TerminalCommandEntered of src/terminal.rs. -/
structure TerminalCommandEntered where
  command : String
  args : List ValueRawOwned

/-- Embeds the Rust expression s.trim().is_empty() used by terminal_ui in
src/ui.rs: a string trims to empty exactly when every character is
whitespace. -/
def trimIsEmpty (s : String) : Bool :=
  s.data.all Char.isWhitespace

/-- Embeds struct TerminalState of src/terminal.rs. -/
structure TerminalState where
  buf : String
  scrollback : List String
  history : List String
  history_index : Nat

/-- Embeds impl Default for TerminalState of src/terminal.rs. -/
def TerminalState.default : TerminalState :=
  { buf := "", scrollback := [], history := [""], history_index := 0 }

/-- The result of one Submit handling in terminal_ui of src/ui.rs: the
updated session state and the TerminalCommandEntered event sent to
command_entered (if any). -/
structure SubmitOutput where
  state : TerminalState
  sent : Option TerminalCommandEntered

/-- Embeds the Enter branch of terminal_ui in src/ui.rs (lines 59-89).
history_size is config.history_size; the line parsing function
parse_terminal_command lives in the parser crate outside src and is taken
as a parameter: some means Ok (with the event that the Ok branch builds),
none means Err. -/
def terminal_submit (history_size : Nat)
    (parse : String → Option TerminalCommandEntered)
    (state : TerminalState) : SubmitOutput :=
  if trimIsEmpty state.buf then
    { state := { state with scrollback := state.scrollback ++ [""] }, sent := none }
  else
    let msg := "$ " ++ state.buf
    let scrollback := state.scrollback ++ [msg]
    let cmd_string := state.buf
    let history := state.history.insertIdx 1 cmd_string
    let history := if history.length > history_size + 1 then history.dropLast else history
    match parse state.buf with
    | some command =>
        { state := { state with scrollback := scrollback, history := history, buf := "" },
          sent := some command }
    | none =>
        { state := { state with
            scrollback := scrollback ++ ["[error] invalid argument(s)"],
            history := history, buf := "" },
          sent := none }

/-- Embeds the ArrowUp branch of terminal_ui in src/ui.rs (lines 92-105). -/
def history_up (state : TerminalState) : TerminalState :=
  if state.history.length > 1 ∧ state.history_index < state.history.length - 1 then
    let history :=
      if state.history_index = 0 ∧ ¬trimIsEmpty state.buf then
        state.history.set 0 state.buf
      else
        state.history
    let history_index := state.history_index + 1
    let previous_item := history.getD history_index ""
    { state with history := history, history_index := history_index, buf := previous_item }
  else
    state

/-- Embeds the ArrowDown branch of terminal_ui in src/ui.rs (lines 106-115). -/
def history_down (state : TerminalState) : TerminalState :=
  if state.history_index > 0 then
    let history_index := state.history_index - 1
    let next_item := state.history.getD history_index ""
    { state with history_index := history_index, buf := next_item }
  else
    state

/-- One interactive operation against the session state: typing into the
edit buffer (the egui TextEdit bound to state.buf), or one of the three
key-driven branches of terminal_ui. -/
inductive TerminalOp where
  | edit (text : String)
  | submit (parse : String → Option TerminalCommandEntered)
  | historyUp
  | historyDown

/-- Apply one operation to the session state (dropping the sent event). -/
def applyOp (history_size : Nat) : TerminalOp → TerminalState → TerminalState
  | .edit text, s => { s with buf := text }
  | .submit parse, s => (terminal_submit history_size parse s).state
  | .historyUp, s => history_up s
  | .historyDown, s => history_down s

/-- Run a sequence of operations from a starting state. -/
def runOps (history_size : Nat) (ops : List TerminalOp) (s : TerminalState) : TerminalState :=
  ops.foldl (fun s op => applyOp history_size op s) s

/-- The history cursor stays strictly inside the history list. -/
def cursorInBounds (s : TerminalState) : Prop :=
  s.history_index < s.history.length

/-- Embeds enum FromValueError of the value module.
Modelled from the spec: the value module (src value.rs) is not under src;
the spec lists the four variants NotEnoughArgs, UnexpectedArgType with
expected and received tags, ValueTooLarge, and Custom with a message.  The
dispatcher in src/terminal.rs matches exactly these four variants. -/
inductive FromValueError where
  | notEnoughArgs
  | unexpectedArgType (expected received : String)
  | valueTooLarge (info : String)
  | custom (message : String)

/-- Embeds struct CommandArgInfo of src/terminal.rs. -/
structure CommandArgInfo where
  name : String
  ty : String
  description : Option String
  optional : Bool
deriving DecidableEq

/-- Embeds struct CommandInfo of src/terminal.rs. -/
structure CommandInfo where
  name : String
  description : Option String
  args : List CommandArgInfo
deriving DecidableEq

/-- Embeds Rust str::lines: pieces between newline characters, with the
piece after a final newline dropped and a trailing carriage return stripped
from each line. -/
def rustLines (s : String) : List String :=
  let parts := s.splitOn "\n"
  let parts := if parts.getLast! = "" then parts.dropLast else parts
  parts.map (fun l => if l.endsWith "\r" then l.dropRight 1 else l)

/-- The longest argument name of a command, from CommandInfo::help_text in
src/terminal.rs: self.args.iter().map(name length).max().unwrap_or(0). -/
def CommandInfo.longest_arg_name (info : CommandInfo) : Nat :=
  (info.args.map (fun arg => arg.name.length)).foldr max 0

/-- The longest argument type tag of a command, from CommandInfo::help_text
in src/terminal.rs. -/
def CommandInfo.longest_arg_ty (info : CommandInfo) : Nat :=
  (info.args.map (fun arg => arg.ty.length)).foldr max 0

/-- Embeds CommandInfo::help_text of src/terminal.rs (lines 135-212).
Rust usize subtraction in the padding expressions is embedded as Nat
subtraction; 2usize.saturating_sub(spaces) is Nat subtraction as well. -/
def CommandInfo.help_text (info : CommandInfo) : String :=
  let buf := "Usage:\n\n"
  let buf := buf ++ "  > " ++ info.name
  let buf := info.args.foldl (fun buf arg =>
      let buf := buf ++ " "
      let buf := buf ++ (if arg.optional then "[" else "<")
      let buf := buf ++ arg.name
      buf ++ (if arg.optional then "]" else ">")) buf
  let buf := buf ++ "\n" ++ "\n"
  let buf :=
    match info.description with
    | some description =>
        let description := (rustLines description).foldl (fun acc s =>
            let spaces := (s.data.takeWhile (fun c => c = ' ')).length
            let acc := acc ++ String.mk (List.replicate (2 - spaces) ' ')
            acc ++ s ++ "\n") ""
        buf ++ description ++ "\n"
    | none => buf
  let longName := info.longest_arg_name
  let longTy := info.longest_arg_ty
  info.args.foldl (fun buf arg =>
      let buf := buf ++ "    " ++ arg.name ++ " "
          ++ String.mk (List.replicate (longName - arg.name.length) ' ')
      let buf := buf ++ (if arg.optional then "[" else "<")
      let buf := buf ++ arg.ty
      let buf := buf ++ (if arg.optional then "]" else ">")
      let buf := buf ++ String.mk (List.replicate (longTy - arg.ty.length) ' ')
      match arg.description with
      | some description => buf ++ "   - " ++ description ++ "\n"
      | none => buf ++ "\n") buf

/-- Embeds struct TerminalCommand of src/terminal.rs restricted to the slot
that holds the typed command; the terminal_line event writer is embedded
separately as the list of lines a computation sends. -/
structure BoundCommand (T : Type) where
  command : Option T

/-- Embeds TerminalCommand::take of src/terminal.rs: mem::take moves the
value out of the slot, leaving None, and returns it together with the
updated slot. -/
def BoundCommand.take {T : Type} (c : BoundCommand T) : Option T × BoundCommand T :=
  (c.command, { command := none })

/-- The value returned by the n-th call (0-based) to take on a slot, with
the slot threaded through the earlier calls. -/
def BoundCommand.takeIter {T : Type} : Nat → BoundCommand T → Option T
  | 0, c => c.take.1
  | n + 1, c => BoundCommand.takeIter n c.take.2

/-- Embeds SystemParamFetch::get_param for TerminalCommandState in
src/terminal.rs (lines 332-369).  The per-type pieces are parameters:
command_name is T::command_name(), from_values is T::from_values,
command_help is T::command_help(), and display is the Display impl of
FromValueError (which lives in the value module outside src).  events is
the entered-command stream the event reader yields this cycle; the result
is the built TerminalCommand slot and the lines sent to terminal_line. -/
def get_param {T : Type} (command_name : String)
    (from_values : List ValueRawOwned → Except FromValueError T)
    (command_help : Option CommandInfo)
    (display : FromValueError → String)
    (events : List TerminalCommandEntered) : BoundCommand T × List String :=
  match events.find? (fun cmd => cmd.command == command_name) with
  | none => ({ command := none }, [])
  | some cmd =>
      match from_values cmd.args with
      | .ok value => ({ command := some value }, [])
      | .error err =>
          let lines := [display err]
          let lines :=
            match err with
            | .unexpectedArgType _ _ | .notEnoughArgs | .custom _ =>
                match command_help with
                | some help_text => lines ++ [help_text.help_text]
                | none => lines
            | .valueTooLarge _ => lines
          ({ command := none }, lines)

/-- Embeds BTreeMap insert for the registry in src/terminal.rs: the map is
a key-sorted association list without duplicate keys; insert places the new
pair at its ordered position, overwriting an equal key. -/
def btreeInsert {α : Type} (k : String) (v : α) : List (String × α) → List (String × α)
  | [] => [(k, v)]
  | p :: rest =>
      if k < p.1 then (k, v) :: p :: rest
      else if k = p.1 then (k, v) :: rest
      else p :: btreeInsert k v rest

/-- Embeds BTreeMap get for the registry. -/
def btreeGet {α : Type} (k : String) : List (String × α) → Option α
  | [] => none
  | p :: rest => if p.1 = k then some p.2 else btreeGet k rest

/-- Embeds BTreeMap contains_key for the registry. -/
def btreeContains {α : Type} (k : String) (m : List (String × α)) : Bool :=
  (btreeGet k m).isSome

/-- The registry: config.commands of src/terminal.rs, a BTreeMap from
command name to the optional command help. -/
def Registry : Type := List (String × Option CommandInfo)

/-- Embeds the registration closure inside
AddTerminalCommand::add_terminal_command of src/terminal.rs (lines
464-473): warn if the name is already registered, then insert.  Returns
the updated registry and whether the overwrite warning was emitted. -/
def add_terminal_command (name : String) (help : Option CommandInfo)
    (commands : Registry) : Registry × Bool :=
  (btreeInsert name help commands, btreeContains name commands)

/-- Embeds struct ClearCommand of src/commands/clear.rs. -/
structure ClearCommand where

/-- Embeds fn clear_command of src/commands/clear.rs: if take yields the
command, clear the scrollback. -/
def clear_command (clear : BoundCommand ClearCommand) (state : TerminalState) :
    TerminalState :=
  if clear.take.1.isSome then
    { state with scrollback := [] }
  else
    state

/-! ## Helper lemmas about the session state machine -/

theorem submit_history_index_eq (k : Nat) (p : String → Option TerminalCommandEntered)
    (s : TerminalState) :
    (terminal_submit k p s).state.history_index = s.history_index := by
  unfold terminal_submit
  split
  · rfl
  · cases p s.buf <;> rfl

theorem submit_history_length_le (k : Nat) (p : String → Option TerminalCommandEntered)
    (s : TerminalState) (h : s.history.length ≤ k + 1) :
    (terminal_submit k p s).state.history.length ≤ k + 1 := by
  unfold terminal_submit
  split
  · exact h
  · have hins := List.length_insertIdx_le_succ s.history s.buf 1
    have hlen :
        (if (s.history.insertIdx 1 s.buf).length > k + 1 then
            (s.history.insertIdx 1 s.buf).dropLast
          else s.history.insertIdx 1 s.buf).length ≤ k + 1 := by
      split
      · rw [List.length_dropLast]
        omega
      · omega
    cases p s.buf <;> simpa using hlen

theorem submit_cursor_in_bounds (k : Nat) (p : String → Option TerminalCommandEntered)
    (s : TerminalState) (h : cursorInBounds s) :
    cursorInBounds (terminal_submit k p s).state := by
  have hidx := submit_history_index_eq k p s
  unfold cursorInBounds at h ⊢
  rw [hidx]
  unfold terminal_submit
  split
  · exact h
  · have hone : (1 : Nat) ≤ s.history.length := by omega
    have hins : (s.history.insertIdx 1 s.buf).length = s.history.length + 1 :=
      List.length_insertIdx 1 s.history hone
    have hlen :
        s.history_index <
          (if (s.history.insertIdx 1 s.buf).length > k + 1 then
              (s.history.insertIdx 1 s.buf).dropLast
            else s.history.insertIdx 1 s.buf).length := by
      split
      · rw [List.length_dropLast]
        omega
      · omega
    cases p s.buf <;> simpa using hlen

theorem history_up_length_eq (s : TerminalState) :
    (history_up s).history.length = s.history.length := by
  by_cases hc : s.history.length > 1 ∧ s.history_index < s.history.length - 1
  · simp [history_up, hc]
    split <;> simp
  · simp [history_up, hc]

theorem history_up_index (s : TerminalState)
    (hc : s.history.length > 1 ∧ s.history_index < s.history.length - 1) :
    (history_up s).history_index = s.history_index + 1 := by
  simp [history_up, hc]

theorem history_up_cursor_in_bounds (s : TerminalState) (h : cursorInBounds s) :
    cursorInBounds (history_up s) := by
  unfold cursorInBounds at h ⊢
  by_cases hc : s.history.length > 1 ∧ s.history_index < s.history.length - 1
  · rw [history_up_index s hc, history_up_length_eq s]
    omega
  · simp [history_up, hc]
    exact h

theorem history_down_history_eq (s : TerminalState) :
    (history_down s).history = s.history := by
  by_cases hc : s.history_index > 0 <;> simp [history_down, hc]

theorem history_down_cursor_in_bounds (s : TerminalState) (h : cursorInBounds s) :
    cursorInBounds (history_down s) := by
  unfold cursorInBounds at h ⊢
  by_cases hc : s.history_index > 0
  · simp [history_down, hc]
    omega
  · simp [history_down, hc]
    exact h

theorem applyOp_cursor_in_bounds (k : Nat) (op : TerminalOp) (s : TerminalState)
    (h : cursorInBounds s) : cursorInBounds (applyOp k op s) := by
  cases op with
  | edit t => exact h
  | submit p => exact submit_cursor_in_bounds k p s h
  | historyUp => exact history_up_cursor_in_bounds s h
  | historyDown => exact history_down_cursor_in_bounds s h

theorem runOps_cursor_in_bounds (k : Nat) (ops : List TerminalOp) (s : TerminalState)
    (h : cursorInBounds s) : cursorInBounds (runOps k ops s) := by
  induction ops generalizing s with
  | nil => exact h
  | cons op rest ih => exact ih _ (applyOp_cursor_in_bounds k op s h)

theorem applyOp_history_length_le (k : Nat) (op : TerminalOp) (s : TerminalState)
    (h : s.history.length ≤ k + 1) : (applyOp k op s).history.length ≤ k + 1 := by
  cases op with
  | edit t => exact h
  | submit p => exact submit_history_length_le k p s h
  | historyUp =>
    show (history_up s).history.length ≤ k + 1
    rw [history_up_length_eq]
    exact h
  | historyDown =>
    show (history_down s).history.length ≤ k + 1
    rw [history_down_history_eq]
    exact h

theorem runOps_history_length_le (k : Nat) (ops : List TerminalOp) (s : TerminalState)
    (h : s.history.length ≤ k + 1) : (runOps k ops s).history.length ≤ k + 1 := by
  induction ops generalizing s with
  | nil => exact h
  | cons op rest ih => exact ih _ (applyOp_history_length_le k op s h)

/-! ## Claim theorems: session state machine -/

/-- Claim C4: for every session state reachable from the initial state by
any sequence of buffer edits, Submit, HistoryUp and HistoryDown
operations, the history cursor satisfies 0 <= history_cursor <
history.len(). -/
theorem claim_c4_cursor_invariant (k : Nat) (ops : List TerminalOp) :
    cursorInBounds (runOps k ops TerminalState.default) :=
  runOps_cursor_in_bounds k ops TerminalState.default
    (by unfold cursorInBounds; decide)

/-- Claim C2: with history_size_limit = k positive, after any sequence of
operations (in particular after each Submit) the history list holds at
most k + 1 entries. -/
theorem claim_c2_history_bound (k : Nat) (hk : 0 < k) (ops : List TerminalOp) :
    (runOps k ops TerminalState.default).history.length ≤ k + 1 :=
  runOps_history_length_le k ops TerminalState.default
    (by have h1 : TerminalState.default.history.length = 1 := rfl; omega)

/-- Witness for claim C2 at k = 2 with one edit and one submit. -/
theorem claim_c2_history_bound_witness :
    0 < 2 ∧
      (runOps 2 [TerminalOp.edit "a", TerminalOp.submit (fun _ => none)]
        TerminalState.default).history.length ≤ 2 + 1 :=
  ⟨by decide, claim_c2_history_bound 2 (by decide) _⟩

/-- Claim C1 as stated is false: Submit clears the edit buffer but does
not reset the history cursor.  Starting from the initial state, submit
the line a, press ArrowUp (cursor becomes 1, buffer becomes a), and submit
again: the buffer is non-blank before the second Submit, yet afterwards
the cursor is still 1, not 0. -/
theorem claim_c1_counterexample :
    let p : String → Option TerminalCommandEntered := fun _ => none
    let s1 := (terminal_submit 20 p { TerminalState.default with buf := "a" }).state
    let s2 := history_up s1
    trimIsEmpty s2.buf = false ∧
      (terminal_submit 20 p s2).state.buf = "" ∧
      (terminal_submit 20 p s2).state.history_index ≠ 0 := by decide

/-- Claim C1 (amended): for every Submit whose edit buffer is non-blank
after trimming, when the processing completes the edit buffer is the empty
string and history_cursor is unchanged (the code never resets it to 0),
regardless of whether the line parsed successfully. -/
theorem claim_c1_submit_clears_buffer (k : Nat)
    (p : String → Option TerminalCommandEntered) (s : TerminalState)
    (h : trimIsEmpty s.buf = false) :
    (terminal_submit k p s).state.buf = "" ∧
    (terminal_submit k p s).state.history_index = s.history_index := by
  refine ⟨?_, submit_history_index_eq k p s⟩
  cases hp : p s.buf <;> simp [terminal_submit, h, hp]

/-- Witness for the amended claim C1 on the buffer ping. -/
theorem claim_c1_submit_clears_buffer_witness :
    trimIsEmpty ("ping" : String) = false ∧
      ((terminal_submit 20 (fun _ => none)
          { TerminalState.default with buf := "ping" }).state.buf = "" ∧
        (terminal_submit 20 (fun _ => none)
          { TerminalState.default with buf := "ping" }).state.history_index =
          ({ TerminalState.default with buf := "ping" } : TerminalState).history_index) :=
  ⟨by decide, claim_c1_submit_clears_buffer 20 (fun _ => none) _ (by decide)⟩

/-- Claim C7: for every Submit whose edit buffer is blank after trimming,
exactly one blank line is appended to scrollback, no command is
dispatched, history and the history cursor are unchanged, and the outcome
does not depend on the parsing function at all (no parse attempted). -/
theorem claim_c7_blank_submit (k : Nat) (p : String → Option TerminalCommandEntered)
    (s : TerminalState) (h : trimIsEmpty s.buf = true) :
    (terminal_submit k p s).state.scrollback = s.scrollback ++ [""] ∧
    (terminal_submit k p s).sent = none ∧
    (terminal_submit k p s).state.history = s.history ∧
    (terminal_submit k p s).state.history_index = s.history_index ∧
    (∀ q : String → Option TerminalCommandEntered,
      terminal_submit k q s = terminal_submit k p s) := by
  refine ⟨?_, ?_, ?_, ?_, ?_⟩ <;> simp [terminal_submit, h]

/-- Witness for claim C7 on an all-blank buffer. -/
theorem claim_c7_blank_submit_witness :
    trimIsEmpty ("   " : String) = true ∧
      ((terminal_submit 20 (fun _ => none)
          { TerminalState.default with buf := "   " }).state.scrollback =
        ({ TerminalState.default with buf := "   " } : TerminalState).scrollback ++ [""] ∧
      (terminal_submit 20 (fun _ => none)
          { TerminalState.default with buf := "   " }).sent = none ∧
      (terminal_submit 20 (fun _ => none)
          { TerminalState.default with buf := "   " }).state.history =
        ({ TerminalState.default with buf := "   " } : TerminalState).history ∧
      (terminal_submit 20 (fun _ => none)
          { TerminalState.default with buf := "   " }).state.history_index =
        ({ TerminalState.default with buf := "   " } : TerminalState).history_index ∧
      (∀ q : String → Option TerminalCommandEntered,
        terminal_submit 20 q { TerminalState.default with buf := "   " } =
          terminal_submit 20 (fun _ => none)
            { TerminalState.default with buf := "   " })) :=
  ⟨by decide, claim_c7_blank_submit 20 (fun _ => none) _ (by decide)⟩

/-- Claim C6: HistoryUp is a no-op unless the history has more than the
scratch slot and the cursor is not yet at the oldest entry; otherwise,
when at the scratch slot with a non-blank buffer the buffer is first
snapshotted into slot 0, and then the cursor is incremented and the buffer
is replaced by the history entry at the new cursor position (the
scrollback is untouched). -/
theorem claim_c6_history_up (s : TerminalState) :
    (¬(s.history.length > 1 ∧ s.history_index < s.history.length - 1) →
      history_up s = s) ∧
    (s.history.length > 1 → s.history_index < s.history.length - 1 →
      (history_up s).history_index = s.history_index + 1 ∧
      (history_up s).history =
        (if s.history_index = 0 ∧ ¬trimIsEmpty s.buf then s.history.set 0 s.buf
         else s.history) ∧
      (history_up s).buf = s.history.getD (s.history_index + 1) "" ∧
      (history_up s).scrollback = s.scrollback) := by
  constructor
  · intro hc
    simp [history_up, hc]
  · intro h1 h2
    have hc : s.history.length > 1 ∧ s.history_index < s.history.length - 1 := ⟨h1, h2⟩
    refine ⟨history_up_index s hc, ?_, ?_, ?_⟩
    · simp [history_up, hc]
    · by_cases hs : s.history_index = 0 ∧ trimIsEmpty s.buf = false
      · have hidx : s.history_index = 0 := hs.1
        simp [history_up, hc, hs, hidx]
      · simp [history_up, hc, hs]
    · simp [history_up, hc]

/-- The concrete state used by the witness of claim C6: three history
entries, cursor at the scratch slot, non-blank buffer. -/
def c6State : TerminalState :=
  { buf := "x", scrollback := [], history := ["", "a", "b"], history_index := 0 }

/-- Witness for claim C6 in the active case. -/
theorem claim_c6_history_up_witness :
    c6State.history.length > 1 ∧
    c6State.history_index < c6State.history.length - 1 ∧
    ((history_up c6State).history_index = c6State.history_index + 1 ∧
      (history_up c6State).history =
        (if c6State.history_index = 0 ∧ ¬trimIsEmpty c6State.buf then
          c6State.history.set 0 c6State.buf
         else c6State.history) ∧
      (history_up c6State).buf = c6State.history.getD (c6State.history_index + 1) "" ∧
      (history_up c6State).scrollback = c6State.scrollback) :=
  ⟨by decide, by decide,
    (claim_c6_history_up c6State).2 (by decide) (by decide)⟩

/-! ## Claim theorems: binder and dispatcher -/

theorem takeIter_none {T : Type} (n : Nat) :
    BoundCommand.takeIter n ({ command := none } : BoundCommand T) = none := by
  induction n with
  | zero => rfl
  | succ n ih => exact ih

/-- Claim C5: when a binder successfully binds a typed command, the first
take returns the typed value and every later take in the same cycle
returns none. -/
theorem claim_c5_take_at_most_once {T : Type} (command_name : String)
    (from_values : List ValueRawOwned → Except FromValueError T)
    (command_help : Option CommandInfo) (display : FromValueError → String)
    (events : List TerminalCommandEntered) (v : T)
    (h : (get_param command_name from_values command_help display events).1.command =
      some v) :
    (get_param command_name from_values command_help display events).1.take.1 = some v ∧
    ∀ n : Nat,
      BoundCommand.takeIter (n + 1)
        (get_param command_name from_values command_help display events).1 = none := by
  constructor
  · exact h
  · intro n
    exact takeIter_none n

/-- Events used by the witnesses of claims C5 and C3. -/
def exampleEvents : List TerminalCommandEntered := [{ command := "log", args := [] }]

/-- Witness for claim C5: a binder for log binds the value 3. -/
theorem claim_c5_take_at_most_once_witness :
    (get_param "log" (fun _ => Except.ok (3 : Nat)) none (fun _ => "")
        exampleEvents).1.command = some 3 ∧
    ((get_param "log" (fun _ => Except.ok (3 : Nat)) none (fun _ => "")
        exampleEvents).1.take.1 = some 3 ∧
      ∀ n : Nat,
        BoundCommand.takeIter (n + 1)
          (get_param "log" (fun _ => Except.ok (3 : Nat)) none (fun _ => "")
            exampleEvents).1 = none) :=
  ⟨rfl, claim_c5_take_at_most_once "log" (fun _ => Except.ok 3) none (fun _ => "")
    exampleEvents 3 rfl⟩

/-- Claim C3 as stated is false: a binder whose command has no stored help
(T::command_help() returns None) emits only the error display text on a
NotEnoughArgs failure, with no additional help reply. -/
theorem claim_c3_counterexample :
    (@get_param PUnit "log" (fun _ => Except.error FromValueError.notEnoughArgs)
        none (fun _ => "not enough arguments")
        [{ command := "log", args := [] }]).2 = ["not enough arguments"] := rfl

/-- Claim C3 (amended): on a conversion failure the error display text is
emitted as a reply; the rendered help text is additionally emitted for
NotEnoughArgs, UnexpectedArgType and Custom failures provided the command
has stored help, while ValueTooLarge failures emit only the error text. -/
theorem claim_c3_reject_replies {T : Type} (command_name : String)
    (from_values : List ValueRawOwned → Except FromValueError T)
    (command_help : Option CommandInfo) (display : FromValueError → String)
    (events : List TerminalCommandEntered) (cmd : TerminalCommandEntered)
    (err : FromValueError)
    (hfind : events.find? (fun c => c.command == command_name) = some cmd)
    (herr : from_values cmd.args = Except.error err) :
    (get_param command_name from_values command_help display events).1.command = none ∧
    (get_param command_name from_values command_help display events).2 =
      [display err] ++
        (match err, command_help with
         | FromValueError.valueTooLarge _, _ => []
         | _, some info => [info.help_text]
         | _, none => []) := by
  unfold get_param
  rw [hfind]
  simp only [herr]
  cases err <;> cases command_help <;> simp

/-- Help metadata used by the witness of claim C3. -/
def exampleHelp : CommandInfo :=
  { name := "log", description := some "Prints a message to the terminal", args := [] }

/-- Witness for claim C3 (amended): a NotEnoughArgs failure on a command
with stored help emits the error text followed by the rendered help. -/
theorem claim_c3_reject_replies_witness :
    exampleEvents.find? (fun c => c.command == "log") =
      some { command := "log", args := [] } ∧
    (fun _ : List ValueRawOwned =>
        (Except.error FromValueError.notEnoughArgs : Except FromValueError PUnit))
      ({ command := "log", args := [] } : TerminalCommandEntered).args =
      Except.error FromValueError.notEnoughArgs ∧
    ((@get_param PUnit "log" (fun _ => Except.error FromValueError.notEnoughArgs)
        (some exampleHelp) (fun _ => "not enough arguments") exampleEvents).1.command =
      none ∧
    (@get_param PUnit "log" (fun _ => Except.error FromValueError.notEnoughArgs)
        (some exampleHelp) (fun _ => "not enough arguments") exampleEvents).2 =
      ["not enough arguments"] ++
        (match FromValueError.notEnoughArgs, some exampleHelp with
         | FromValueError.valueTooLarge _, _ => []
         | _, some info => [info.help_text]
         | _, none => [])) :=
  ⟨rfl, rfl,
    claim_c3_reject_replies "log" (fun _ => Except.error FromValueError.notEnoughArgs)
      (some exampleHelp) (fun _ => "not enough arguments") exampleEvents
      { command := "log", args := [] } FromValueError.notEnoughArgs rfl rfl⟩

/-! ## Claim theorems: registry -/

/-- The BTreeMap representation invariant: keys strictly increase along
the association list. -/
def keysSorted {α : Type} (m : List (String × α)) : Prop :=
  m.Pairwise (fun p q => p.1 < q.1)

theorem btreeInsert_mem {α : Type} (k : String) (v : α) (m : List (String × α))
    (q : String × α) (h : q ∈ btreeInsert k v m) : q = (k, v) ∨ q ∈ m := by
  induction m with
  | nil =>
    simp [btreeInsert] at h
    exact Or.inl h
  | cons p rest ih =>
    unfold btreeInsert at h
    split at h
    · rcases List.mem_cons.mp h with h | h
      · exact Or.inl h
      · exact Or.inr h
    · split at h
      · rcases List.mem_cons.mp h with h | h
        · exact Or.inl h
        · exact Or.inr (List.mem_cons_of_mem p h)
      · rcases List.mem_cons.mp h with h | h
        · exact Or.inr (by rw [h]; exact List.mem_cons_self p rest)
        · rcases ih h with h | h
          · exact Or.inl h
          · exact Or.inr (List.mem_cons_of_mem p h)

theorem keysSorted_insert {α : Type} (k : String) (v : α) (m : List (String × α))
    (hm : keysSorted m) : keysSorted (btreeInsert k v m) := by
  induction m with
  | nil =>
    unfold keysSorted btreeInsert
    exact List.pairwise_singleton _ _
  | cons p rest ih =>
    rcases List.pairwise_cons.mp hm with ⟨hp, hrest⟩
    unfold btreeInsert
    split
    · next h1 =>
      refine List.pairwise_cons.mpr ⟨?_, hm⟩
      intro q hq
      rcases List.mem_cons.mp hq with h | h
      · rw [h]; exact h1
      · exact lt_trans h1 (hp q h)
    · split
      · next h2 =>
        refine List.pairwise_cons.mpr ⟨?_, hrest⟩
        intro q hq
        rw [h2]
        exact hp q hq
      · next h1 h2 =>
        have h3 : p.1 < k := by
          rcases lt_trichotomy k p.1 with h | h | h
          · exact absurd h h1
          · exact absurd h h2
          · exact h
        refine List.pairwise_cons.mpr ⟨?_, ih hrest⟩
        intro q hq
        rcases btreeInsert_mem k v rest q hq with h | h
        · rw [h]; exact h3
        · exact hp q h

theorem btreeGet_insert {α : Type} (k : String) (v : α) (m : List (String × α)) :
    btreeGet k (btreeInsert k v m) = some v := by
  induction m with
  | nil => simp [btreeInsert, btreeGet]
  | cons p rest ih =>
    unfold btreeInsert
    split
    · simp [btreeGet]
    · split
      · simp [btreeGet]
      · next h1 h2 =>
        have hne : p.1 ≠ k := fun h => h2 h.symm
        simp [btreeGet, hne]
        exact ih

theorem countP_eq_zero_of_gt {α : Type} (k : String) (m : List (String × α))
    (hall : ∀ q ∈ m, k < q.1) : m.countP (fun p => p.1 == k) = 0 := by
  rw [List.countP_eq_zero]
  intro q hq
  simp only [beq_iff_eq]
  exact ne_of_gt (hall q hq)

theorem countP_insert_eq_one {α : Type} (k : String) (v : α) (m : List (String × α))
    (hm : keysSorted m) : (btreeInsert k v m).countP (fun p => p.1 == k) = 1 := by
  induction m with
  | nil => simp [btreeInsert]
  | cons p rest ih =>
    rcases List.pairwise_cons.mp hm with ⟨hp, hrest⟩
    unfold btreeInsert
    split
    · next h1 =>
      have hz : (p :: rest).countP (fun q => q.1 == k) = 0 := by
        refine countP_eq_zero_of_gt k (p :: rest) ?_
        intro q hq
        rcases List.mem_cons.mp hq with h | h
        · rw [h]; exact h1
        · exact lt_trans h1 (hp q h)
      simp [List.countP_cons, hz]
    · split
      · next h2 =>
        have hz : rest.countP (fun q => q.1 == k) = 0 := by
          refine countP_eq_zero_of_gt k rest ?_
          intro q hq
          rw [h2]
          exact hp q hq
        simp [List.countP_cons, hz]
      · next h1 h2 =>
        have h3 : p.1 < k := by
          rcases lt_trichotomy k p.1 with h | h | h
          · exact absurd h h1
          · exact absurd h h2
          · exact h
        have hpk : (p.1 == k) = false := by
          simp only [beq_eq_false_iff_ne]
          exact ne_of_lt h3
        simp [List.countP_cons, hpk, ih hrest]

/-- Claim C8: registering a schema under an already registered name leaves
exactly one registry entry for that name, equal to the second
registration, and the second registration reports the overwrite warning;
registration is a total function and never fails. -/
theorem claim_c8_register_overwrite (m : Registry) (hm : keysSorted m)
    (name : String) (help1 help2 : Option CommandInfo) :
    ((add_terminal_command name help2 (add_terminal_command name help1 m).1).1.countP
        (fun p => p.1 == name) = 1) ∧
    btreeGet name (add_terminal_command name help2 (add_terminal_command name help1 m).1).1 =
      some help2 ∧
    (add_terminal_command name help2 (add_terminal_command name help1 m).1).2 = true := by
  refine ⟨?_, ?_, ?_⟩
  · exact countP_insert_eq_one name help2 _ (keysSorted_insert name help1 m hm)
  · exact btreeGet_insert name help2 _
  · show btreeContains name (btreeInsert name help1 m) = true
    unfold btreeContains
    rw [btreeGet_insert]
    rfl

/-- Help metadata used by the witness of claim C8. -/
def exampleHelp2 : CommandInfo :=
  { name := "log", description := some "Prints a message", args := [] }

/-- Witness for claim C8: register log twice into the empty registry. -/
theorem claim_c8_register_overwrite_witness :
    keysSorted ([] : Registry) ∧
    (((add_terminal_command "log" (some exampleHelp2)
          (add_terminal_command "log" none []).1).1.countP
        (fun p => p.1 == "log") = 1) ∧
      btreeGet "log" (add_terminal_command "log" (some exampleHelp2)
          (add_terminal_command "log" none []).1).1 = some (some exampleHelp2) ∧
      (add_terminal_command "log" (some exampleHelp2)
          (add_terminal_command "log" none []).1).2 = true) :=
  ⟨List.Pairwise.nil,
    claim_c8_register_overwrite [] List.Pairwise.nil "log" none (some exampleHelp2)⟩

/-! ## Claim theorems: built-in commands and help rendering -/

/-- Claim C9: an executed clear command empties the scrollback and leaves
the history, the history cursor and the edit buffer unchanged. -/
theorem claim_c9_clear (c : ClearCommand) (s : TerminalState) :
    (clear_command { command := some c } s).scrollback = [] ∧
    (clear_command { command := some c } s).history = s.history ∧
    (clear_command { command := some c } s).history_index = s.history_index ∧
    (clear_command { command := some c } s).buf = s.buf := by
  refine ⟨?_, ?_, ?_, ?_⟩ <;> simp [clear_command, BoundCommand.take]

theorem mem_le_foldr_max (x : Nat) (l : List Nat) (h : x ∈ l) : x ≤ l.foldr max 0 := by
  induction l with
  | nil => cases h
  | cons a t ih =>
    rcases List.mem_cons.mp h with h | h
    · rw [h]; exact Nat.le_max_left a (t.foldr max 0)
    · exact Nat.le_trans (ih h) (Nat.le_max_right a (t.foldr max 0))

/-- Claim C10: the column-padding subtractions in help_text never
underflow: every argument name and type-tag length is bounded by the
corresponding longest value computed over the same argument list. -/
theorem claim_c10_help_padding (info : CommandInfo) (arg : CommandArgInfo)
    (h : arg ∈ info.args) :
    arg.name.length ≤ info.longest_arg_name ∧ arg.ty.length ≤ info.longest_arg_ty := by
  constructor
  · exact mem_le_foldr_max _ _ (List.mem_map_of_mem _ h)
  · exact mem_le_foldr_max _ _ (List.mem_map_of_mem _ h)

/-- Argument metadata used by the witness of claim C10. -/
def exampleArg : CommandArgInfo :=
  { name := "msg", ty := "string", description := none, optional := false }

/-- Command metadata used by the witness of claim C10: two arguments with
names and type tags of differing lengths. -/
def exampleArgsInfo : CommandInfo :=
  { name := "log", description := none,
    args := [exampleArg,
      { name := "n", ty := "i64", description := none, optional := true }] }

/-- Witness for claim C10 on a concrete two-argument command. -/
theorem claim_c10_help_padding_witness :
    exampleArg ∈ exampleArgsInfo.args ∧
    (exampleArg.name.length ≤ exampleArgsInfo.longest_arg_name ∧
      exampleArg.ty.length ≤ exampleArgsInfo.longest_arg_ty) :=
  ⟨by decide, claim_c10_help_padding exampleArgsInfo exampleArg (by decide)⟩

end LeafwingTerminal
